import Mathlib

/-!
Shallow embedding of the switchdev representor-resolution core of
`sriovnet_switchdev.go` (package sriovnet): the port-name codec
`parsePortName`, the switchdev detector `isSwitchdev`, and the two
resolvers `GetUplinkRepresentor` and `GetVfRepresentor`.

Filesystem access (`utilfs.Fs`derived reads, directory listings and stat
calls) is modelled by an explicit environment record `Fs`; machine `int`
is modelled by unbounded `Int` (no claim here depends on 64-bit overflow);
Go loops become structural recursion over the listed directory entries.
-/

namespace Sriovnet

/-- Attribute file name `phys_switch_id` (source constant `netdevPhysSwitchID`). -/
def netdevPhysSwitchID : String := "phys_switch_id"

/-- Attribute file name `phys_port_name` (source constant `netdevPhysPortName`). -/
def netdevPhysPortName : String := "phys_port_name"

/-- Net sysfs root. The constant lives outside the given source file; its exact
value is irrelevant to every claim (it only appears inside joined paths). -/
def NetSysDir : String := "/sys/class/net"

/-- PCI sysfs root; as with `NetSysDir`, only its role as a path root matters. -/
def PciSysDir : String := "/sys/bus/pci/devices"

/-- Model of `filepath.Join` for the two-component case: on the clean, relative-free
path components used by this file it is plain slash concatenation. -/
def goJoin (a b : String) : String := a ++ "/" ++ b

/-- ASCII whitespace recognised by Go's `strings.TrimSpace`
(space, \t, \n, \v, \f, \r); the port-name strings in play are ASCII. -/
def goIsSpace (c : Char) : Bool :=
  c = ' ' || c = '\t' || c = '\n' || c = '\x0b' || c = '\x0c' || c = '\r'

/-- Model of `strings.TrimSpace` on a character list: drop whitespace from both ends. -/
def trimSpaceList (cs : List Char) : List Char :=
  ((cs.dropWhile goIsSpace).reverse.dropWhile goIsSpace).reverse

/-- Model of `strings.TrimSpace`. -/
def trimSpace (s : String) : String := String.mk (trimSpaceList s.data)

/-- Numeric value of a decimal digit character. -/
def digitVal (c : Char) : Nat := c.toNat - 48

/-- Value of a decimal digit string (most significant digit first). -/
def digitsVal (ds : List Char) : Nat :=
  ds.foldl (fun a c => 10 * a + digitVal c) 0

/-- Go's `strconv.Atoi` on a character list: an optional single sign
followed by one or more decimal digits, nothing else. Overflow is not
modelled (the result is an unbounded `Int`). -/
def goAtoi (cs : List Char) : Except Unit Int :=
  match cs with
  | [] => .error ()
  | c :: t =>
    if c = '+' then
      if t ≠ [] ∧ t.all Char.isDigit then .ok (digitsVal t) else .error ()
    else if c = '-' then
      if t ≠ [] ∧ t.all Char.isDigit then .ok (-(digitsVal t : Int)) else .error ()
    else if (c :: t).all Char.isDigit then .ok (digitsVal (c :: t))
    else .error ()

/-- The regex `^p(\d+)$` (source constant `physPortRepRegex`) as a matcher:
a literal `p` followed by one or more digits. -/
def physPortRepMatch (cs : List Char) : Bool :=
  match cs with
  | [] => false
  | c :: t => if c = 'p' then !t.isEmpty && t.all Char.isDigit else false

/-- The mandatory `pf(\d+)vf(\d+)$` tail of `vfPortRepRegex`. -/
def vfPortRepCore (cs : List Char) : Option (List Char × List Char) :=
  match cs with
  | c1 :: c2 :: t1 =>
    if c1 = 'p' ∧ c2 = 'f' then
      let d1 := t1.takeWhile Char.isDigit
      if d1.isEmpty then none
      else
        match t1.dropWhile Char.isDigit with
        | e1 :: e2 :: t3 =>
          if e1 = 'v' ∧ e2 = 'f' then
            if !t3.isEmpty && t3.all Char.isDigit then some (d1, t3) else none
          else none
        | _ => none
    else none
  | _ => none

/-- The regex `^(?:c\d+)?pf(\d+)vf(\d+)$` (source constant `vfPortRepRegex`)
as a submatch extractor, returning the two captured digit groups.
Because the digit class excludes `c`, `p`, `v` and `f`, each `\d+` is
forced to its maximal run and the optional prefix is forced whenever the
string starts with `c` (a string starting with `c` cannot match the
prefix-free alternative, whose first character is `p`), so the regex is
equivalent to this deterministic maximal-munch scan. -/
def vfPortRepMatch (cs : List Char) : Option (List Char × List Char) :=
  match cs with
  | [] => none
  | c :: t =>
    if c = 'c' then
      if (t.takeWhile Char.isDigit).isEmpty then none
      else vfPortRepCore (t.dropWhile Char.isDigit)
    else vfPortRepCore (c :: t)

/-- Body of `parsePortName` over the input's character list. -/
def parsePortNameList (cs : List Char) : (Int × Int) × Option String :=
  let t := trimSpaceList cs
  match goAtoi t with
  | .ok n => ((-1, n), none)
  | .error _ =>
    match vfPortRepMatch t with
    | none => ((-1, -1), some ("failed to parse physPortName " ++ String.mk t))
    | some (d1, d2) => (((digitsVal d1 : Int), (digitsVal d2 : Int)), none)

/-- Function `parsePortName` from the source. Go returns the triple
`(pfRepIndex, vfRepIndex int, err error)` with the index values meaningful
even when `err != nil` (callers discard the error); this is modelled as
`((pfRepIndex, vfRepIndex), err)` with `err : Option String`. -/
def parsePortName (physPortName : String) : (Int × Int) × Option String :=
  parsePortNameList physPortName.data

/-- Outcome of `utilfs.Fs.Stat` as the source discriminates it:
success, an `os.ErrNotExist` error, or any other error. -/
inductive StatResult
  | ok
  | notExist
  | otherErr (msg : String)
deriving DecidableEq

/-- The filesystem capability used by the source (`utilfs.Fs`), plus
`getPCIFromDeviceName`, which `GetVfRepresentor` calls but which is not
among the given source files. Modelled from the spec: it resolves an
interface name to its PCI address (domain:bus:device.function string) and
participates here only as an abstract lookup that may fail. -/
structure Fs where
  readFile : String → Except String String
  readDir : String → Except String (List String)
  stat : String → StatResult
  getPCIFromDeviceName : String → Except String String

/-- Function `isSwitchdev` from the source: true iff the interface's
`phys_switch_id` attribute reads successfully and is non-empty. -/
def isSwitchdev (fs : Fs) (netdevice : String) : Bool :=
  match fs.readFile (goJoin (goJoin NetSysDir netdevice) netdevPhysSwitchID) with
  | .error _ => false
  | .ok physSwitchID => physSwitchID ≠ ""

/-- Function `getNetDevPhysPortName` from the source: read and trim
`phys_port_name`. -/
def getNetDevPhysPortName (fs : Fs) (netDev : String) : Except String String :=
  match fs.readFile (goJoin (goJoin NetSysDir netDev) netdevPhysPortName) with
  | .error e => .error e
  | .ok physPortName => .ok (trimSpace physPortName)

/-- The candidate loop of `GetUplinkRepresentor` (source lines 96-108):
skip non-switchdev devices; for a switchdev device, if `phys_port_name`
reads successfully it must match `^p\d+$` (else skip), and a failed read
falls back to accepting the device. -/
def uplinkDeviceLoop (fs : Fs) : List String → Option String
  | [] => none
  | device :: rest =>
    if isSwitchdev fs device then
      match getNetDevPhysPortName fs device with
      | .ok devicePhysPortName =>
        if physPortRepMatch devicePhysPortName.data then some device
        else uplinkDeviceLoop fs rest
      | .error _ => some device
    else uplinkDeviceLoop fs rest

/-- The post-stat part of `GetUplinkRepresentor`: list `devicePath` and
run the candidate loop, with the two source error messages. -/
def uplinkSearchInDir (fs : Fs) (pciAddress devicePath : String) : Except String String :=
  match fs.readDir devicePath with
  | .error e => .error ("failed to lookup " ++ pciAddress ++ ": " ++ e)
  | .ok devices =>
    match uplinkDeviceLoop fs devices with
    | some device => .ok device
    | none => .error ("uplink for " ++ pciAddress ++ " not found")

/-- The `physfn` parent net directory of a PCI address. -/
def physfnNetPath (pciAddress : String) : String :=
  goJoin (goJoin (goJoin PciSysDir pciAddress) "physfn") "net"

/-- The device's own net directory. -/
def ownNetPath (pciAddress : String) : String :=
  goJoin (goJoin PciSysDir pciAddress) "net"

/-- Function `GetUplinkRepresentor` from the source: prefer the physfn parent net
directory; fall back to the device's own net directory exactly when
`Stat` fails with `os.ErrNotExist`. -/
def GetUplinkRepresentor (fs : Fs) (pciAddress : String) : Except String String :=
  let devicePath :=
    match fs.stat (physfnNetPath pciAddress) with
    | .notExist => ownNetPath pciAddress
    | _ => physfnNetPath pciAddress
  uplinkSearchInDir fs pciAddress devicePath

/-- Model of `strconv.Atoi(string(s[len(s)-1]))` applied to the PCI address in
`GetVfRepresentor`: parse the last character as an integer. (Go would
panic when indexing an empty string; PCI addresses are non-empty
domain:bus:device.function strings per the data model, and an empty
lookup result is treated as a failed parse.) -/
def lastCharAtoi (s : String) : Except Unit Int :=
  match s.data.getLast? with
  | none => .error ()
  | some c => goAtoi [c]

/-- The sibling loop of `GetVfRepresentor` (source lines 124-150). Note
the source discards `parsePortName`'s error, so a failed parse
contributes the sentinel indices `(-1, -1)`. -/
def getVfRepLoop (fs : Fs) (uplink physSwitchID : String) (vfIndex : Int) :
    List String → Except String String
  | [] => .error ("failed to find VF representor for uplink " ++ uplink)
  | device :: rest =>
    let skip := getVfRepLoop fs uplink physSwitchID vfIndex rest
    match fs.readFile (goJoin (goJoin NetSysDir device) netdevPhysSwitchID) with
    | .error _ => skip
    | .ok deviceSwID =>
      if deviceSwID ≠ physSwitchID then skip
      else
        match getNetDevPhysPortName fs device with
        | .error _ => skip
        | .ok physPortNameStr =>
          let pfRepIndex := (parsePortName physPortNameStr).1.1
          let vfRepIndex := (parsePortName physPortNameStr).1.2
          if pfRepIndex ≠ -1 then
            match fs.getPCIFromDeviceName uplink with
            | .error _ => skip
            | .ok pfPCIAddress =>
              match lastCharAtoi pfPCIAddress with
              | .error _ => skip
              | .ok PCIFuncAddress =>
                if pfRepIndex ≠ PCIFuncAddress then skip
                else if vfRepIndex = vfIndex then .ok device else skip
          else if vfRepIndex = vfIndex then .ok device else skip

/-- Path of an interface's `phys_switch_id` attribute. -/
def swIDFilePath (netdevice : String) : String :=
  goJoin (goJoin NetSysDir netdevice) netdevPhysSwitchID

/-- Path of an interface's `subsystem` directory. -/
def subsystemPath (netdevice : String) : String :=
  goJoin (goJoin NetSysDir netdevice) "subsystem"

/-- Function `GetVfRepresentor` from the source: require a readable non-empty
switch id on the uplink, list the uplink's subsystem siblings, and run
the sibling loop. -/
def GetVfRepresentor (fs : Fs) (uplink : String) (vfIndex : Int) : Except String String :=
  match fs.readFile (swIDFilePath uplink) with
  | .error _ => .error ("cant get uplink " ++ uplink ++ " switch id")
  | .ok physSwitchID =>
    if physSwitchID = "" then .error ("cant get uplink " ++ uplink ++ " switch id")
    else
      match fs.readDir (subsystemPath uplink) with
      | .error e => .error e
      | .ok devices => getVfRepLoop fs uplink physSwitchID vfIndex devices

/-! ### Decimal encoding (for the round-trip claim)

The spec's round-trip property encodes a pair `(pf, vf)` as the string
`pf{pf}vf{vf}`; `natDecimal` is the standard decimal rendering of a
natural number used for the `{pf}`/`{vf}` holes. -/

/-- Accumulator-style decimal digit emission (most significant first). -/
def natDecimalAux (n : Nat) (acc : List Char) : List Char :=
  if h : n = 0 then acc
  else natDecimalAux (n / 10) (Nat.digitChar (n % 10) :: acc)
termination_by n
decreasing_by exact Nat.div_lt_self (Nat.pos_of_ne_zero h) (by decide)

/-- Decimal digits of `n` (canonical: no leading zeros, `0 ↦ "0"`). -/
def natDecimal (n : Nat) : List Char :=
  if n = 0 then ['0'] else natDecimalAux n []

/-- The spec's round-trip encoding `"pf{pf}vf{vf}"`. -/
def encodePortName (pf vf : Nat) : String :=
  String.mk ('p' :: 'f' :: (natDecimal pf ++ 'v' :: 'f' :: natDecimal vf))

/-! ### Spec-side recognized shapes (for the error-domain claim)

These predicates transcribe the spec's §4.1 list of recognized shapes,
independently of the parser's control flow, so that "fails exactly when
the input matches none of the recognized shapes" is a real comparison.
They are applied to the whitespace-trimmed input, mirroring shape 1's
"optionally surrounded by whitespace". -/

/-- Modelled from the spec: shape 1, a pure (optionally signed) integer. -/
def isLegacyIntegerShape (cs : List Char) : Bool :=
  (!cs.isEmpty && cs.all Char.isDigit) ||
    (match cs with
     | [] => false
     | c :: t => (c = '+' || c = '-') && (!t.isEmpty && t.all Char.isDigit))

/-- Modelled from the spec: the mandatory `pf<digits>vf<digits>` part of
shape 2. -/
def isModernShapeCore (cs : List Char) : Bool :=
  match cs with
  | c1 :: c2 :: t =>
    (c1 = 'p' && c2 = 'f') &&
      (!(t.takeWhile Char.isDigit).isEmpty &&
        (match t.dropWhile Char.isDigit with
         | e1 :: e2 :: u => (e1 = 'v' && e2 = 'f') && (!u.isEmpty && u.all Char.isDigit)
         | _ => false))
  | _ => false

/-- Modelled from the spec: shape 2, `^(?:c<digits>)?pf<digits>vf<digits>$`. -/
def isModernShape (cs : List Char) : Bool :=
  isModernShapeCore cs ||
    (match cs with
     | [] => false
     | c :: t =>
       (c = 'c') &&
         (!(t.takeWhile Char.isDigit).isEmpty &&
           isModernShapeCore (t.dropWhile Char.isDigit)))

/-- An input matches some recognized shape of §4.1 (after trimming). -/
def recognizedShape (s : String) : Bool :=
  isLegacyIntegerShape (trimSpaceList s.data) || isModernShape (trimSpaceList s.data)

/-! ### Concrete fixtures

Small in-memory filesystems used to instantiate the theorems below on
concrete inputs. -/

/-- A fixture tree: uplink `p0` (switch id `sw1`, port name `p0`) whose
subsystem lists siblings `weird` (switch id `sw1`, unparseable port name
`garbage`) and `rep3` (switch id `sw1`, legacy port name `3`); the PCI
device `0000:03:00.4` resolves through `physfn` to a net directory
containing `p0`. Every other read fails with `ENOENT`. -/
def fsFix1 : Fs where
  readFile := fun p =>
    if p = "/sys/class/net/p0/phys_switch_id" then .ok "sw1"
    else if p = "/sys/class/net/p0/phys_port_name" then .ok "p0"
    else if p = "/sys/class/net/rep3/phys_switch_id" then .ok "sw1"
    else if p = "/sys/class/net/rep3/phys_port_name" then .ok "3"
    else if p = "/sys/class/net/weird/phys_switch_id" then .ok "sw1"
    else if p = "/sys/class/net/weird/phys_port_name" then .ok "garbage"
    else .error "ENOENT"
  readDir := fun p =>
    if p = "/sys/class/net/p0/subsystem" then .ok ["weird", "rep3"]
    else if p = "/sys/bus/pci/devices/0000:03:00.4/physfn/net" then .ok ["p0"]
    else .error "ENOENT"
  stat := fun _ => .ok
  getPCIFromDeviceName := fun _ => .ok "0000:03:00.0"

/-! ### Character and list helper lemmas -/

theorem goIsSpace_eq_false_of_isDigit {c : Char} (h : c.isDigit = true) :
    goIsSpace c = false := by
  by_contra hs
  rw [Bool.not_eq_false] at hs
  simp only [goIsSpace, Bool.or_eq_true, decide_eq_true_eq] at hs
  rcases hs with ((((h1 | h1) | h1) | h1) | h1) | h1 <;> subst h1 <;>
    exact absurd h (by decide)

theorem isDigit_ne_plus {c : Char} (h : c.isDigit = true) : c ≠ '+' := by
  intro he; subst he; exact absurd h (by decide)

theorem isDigit_ne_minus {c : Char} (h : c.isDigit = true) : c ≠ '-' := by
  intro he; subst he; exact absurd h (by decide)

theorem dropWhile_append_sat (p : Char → Bool) (l1 l2 : List Char)
    (h : ∀ c ∈ l1, p c = true) : (l1 ++ l2).dropWhile p = l2.dropWhile p := by
  induction l1 with
  | nil => rfl
  | cons a t ih =>
    rw [List.cons_append, List.dropWhile_cons, if_pos (h a (by simp))]
    exact ih (fun c hc => h c (by simp [hc]))

theorem takeWhile_append_sat (p : Char → Bool) (l1 l2 : List Char)
    (h : ∀ c ∈ l1, p c = true) : (l1 ++ l2).takeWhile p = l1 ++ l2.takeWhile p := by
  induction l1 with
  | nil => rfl
  | cons a t ih =>
    rw [List.cons_append, List.takeWhile_cons, if_pos (h a (by simp)), List.cons_append]
    rw [ih (fun c hc => h c (by simp [hc]))]

theorem dropWhile_eq_self_of_unsat (p : Char → Bool) (l : List Char)
    (h : ∀ c ∈ l, p c = false) : l.dropWhile p = l := by
  cases l with
  | nil => rfl
  | cons a t =>
    rw [List.dropWhile_cons, if_neg]
    simp [h a (by simp)]

theorem dropWhile_cons_of_neg {p : Char → Bool} {c : Char} (l : List Char)
    (h : p c = false) : (c :: l).dropWhile p = c :: l := by
  rw [List.dropWhile_cons, if_neg]; simp [h]

theorem takeWhile_cons_of_neg {p : Char → Bool} {c : Char} (l : List Char)
    (h : p c = false) : (c :: l).takeWhile p = [] := by
  rw [List.takeWhile_cons, if_neg]; simp [h]

/-! ### TrimSpace lemmas -/

theorem trimSpaceList_of_nospace (cs : List Char)
    (h : ∀ c ∈ cs, goIsSpace c = false) : trimSpaceList cs = cs := by
  unfold trimSpaceList
  rw [dropWhile_eq_self_of_unsat _ _ h,
    dropWhile_eq_self_of_unsat _ _ (fun c hc => h c (List.mem_reverse.mp hc)),
    List.reverse_reverse]

theorem trimSpaceList_surround (ws1 ws2 core : List Char)
    (h1 : ∀ c ∈ ws1, goIsSpace c = true) (h2 : ∀ c ∈ ws2, goIsSpace c = true)
    (hc : ∀ c ∈ core, goIsSpace c = false) (hne : core ≠ []) :
    trimSpaceList (ws1 ++ core ++ ws2) = core := by
  obtain ⟨c, t, rfl⟩ := List.exists_cons_of_ne_nil hne
  unfold trimSpaceList
  rw [List.append_assoc, dropWhile_append_sat _ _ _ h1, List.cons_append,
    dropWhile_cons_of_neg _ (hc c (by simp))]
  have hrev : (c :: (t ++ ws2)).reverse = ws2.reverse ++ (t.reverse ++ [c]) := by simp
  rw [hrev, dropWhile_append_sat _ _ _ (fun x hx => h2 x (List.mem_reverse.mp hx)),
    dropWhile_eq_self_of_unsat _ _ ?_, List.reverse_append, List.reverse_reverse]
  · simp
  · intro x hx
    rcases List.mem_append.mp hx with hx' | hx'
    · exact hc x (by simp [List.mem_reverse.mp hx'])
    · simp only [List.mem_singleton] at hx'
      subst hx'
      exact hc x (by simp)

/-! ### goAtoi lemmas -/

theorem goAtoi_digits (ds : List Char) (hne : ds ≠ []) (hd : ds.all Char.isDigit = true) :
    goAtoi ds = .ok (digitsVal ds) := by
  obtain ⟨c, t, rfl⟩ := List.exists_cons_of_ne_nil hne
  have hcd : c.isDigit = true := by
    have := List.all_eq_true.mp hd c (by simp)
    simpa using this
  simp [goAtoi, isDigit_ne_plus hcd, isDigit_ne_minus hcd, hd]

theorem goAtoi_plus (ds : List Char) (hne : ds ≠ []) (hd : ds.all Char.isDigit = true) :
    goAtoi ('+' :: ds) = .ok (digitsVal ds) := by
  simp [goAtoi, hne, hd]

theorem goAtoi_minus (ds : List Char) (hne : ds ≠ []) (hd : ds.all Char.isDigit = true) :
    goAtoi ('-' :: ds) = .ok (-(digitsVal ds : Int)) := by
  simp [goAtoi, hne, hd]

theorem goAtoi_error_of_head {c : Char} (t : List Char) (h1 : c ≠ '+') (h2 : c ≠ '-')
    (h3 : c.isDigit = false) : goAtoi (c :: t) = .error () := by
  simp only [goAtoi]
  rw [if_neg h1, if_neg h2, if_neg]
  intro hall
  have := List.all_eq_true.mp hall c (by simp)
  simp [h3] at this

/-! ### Matcher lemmas -/

theorem vfPortRepCore_build (ps vs : List Char) (hp : ps ≠ [])
    (hpd : ps.all Char.isDigit = true) (hv : vs ≠ []) (hvd : vs.all Char.isDigit = true) :
    vfPortRepCore ('p' :: 'f' :: (ps ++ 'v' :: 'f' :: vs)) = some (ps, vs) := by
  have hpd' : ∀ c ∈ ps, Char.isDigit c = true := fun c hc => by
    simpa using List.all_eq_true.mp hpd c hc
  have htake : (ps ++ 'v' :: 'f' :: vs).takeWhile Char.isDigit = ps := by
    rw [takeWhile_append_sat _ _ _ hpd', takeWhile_cons_of_neg _ (by decide), List.append_nil]
  have hdrop : (ps ++ 'v' :: 'f' :: vs).dropWhile Char.isDigit = 'v' :: 'f' :: vs := by
    rw [dropWhile_append_sat _ _ _ hpd', dropWhile_cons_of_neg _ (by decide)]
  simp only [vfPortRepCore, htake, hdrop]
  simp [hp, hv, hvd, List.isEmpty_iff]

theorem vfPortRepMatch_unprefixed {c : Char} (t : List Char) (hc : c ≠ 'c') :
    vfPortRepMatch (c :: t) = vfPortRepCore (c :: t) := by
  simp only [vfPortRepMatch]
  rw [if_neg hc]

theorem vfPortRepMatch_prefixed (cds t : List Char) (h1 : cds ≠ [])
    (h2 : cds.all Char.isDigit = true) :
    vfPortRepMatch ('c' :: (cds ++ 'p' :: t)) = vfPortRepCore ('p' :: t) := by
  have h2' : ∀ c ∈ cds, Char.isDigit c = true := fun c hc => by
    simpa using List.all_eq_true.mp h2 c hc
  have htake : (cds ++ 'p' :: t).takeWhile Char.isDigit = cds := by
    rw [takeWhile_append_sat _ _ _ h2', takeWhile_cons_of_neg _ (by decide), List.append_nil]
  have hdrop : (cds ++ 'p' :: t).dropWhile Char.isDigit = 'p' :: t := by
    rw [dropWhile_append_sat _ _ _ h2', dropWhile_cons_of_neg _ (by decide)]
  simp only [vfPortRepMatch]
  rw [if_pos trivial, htake, hdrop, if_neg (by simp [h1, List.isEmpty_iff])]

/-! ### parsePortName composition lemmas -/

theorem parsePortName_mk (l : List Char) : parsePortName (String.mk l) = parsePortNameList l :=
  rfl

theorem modern_chars_nospace (ps vs : List Char) (hpd : ps.all Char.isDigit = true)
    (hvd : vs.all Char.isDigit = true) :
    ∀ c ∈ 'p' :: 'f' :: (ps ++ 'v' :: 'f' :: vs), goIsSpace c = false := by
  intro c hc
  simp only [List.mem_cons, List.mem_append] at hc
  rcases hc with rfl | rfl | hc | rfl | rfl | hc
  · decide
  · decide
  · exact goIsSpace_eq_false_of_isDigit (by simpa using List.all_eq_true.mp hpd c hc)
  · decide
  · decide
  · exact goIsSpace_eq_false_of_isDigit (by simpa using List.all_eq_true.mp hvd c hc)

theorem parsePortNameList_modern (ps vs : List Char) (hp : ps ≠ [])
    (hpd : ps.all Char.isDigit = true) (hv : vs ≠ []) (hvd : vs.all Char.isDigit = true) :
    parsePortNameList ('p' :: 'f' :: (ps ++ 'v' :: 'f' :: vs)) =
      (((digitsVal ps : Int), (digitsVal vs : Int)), none) := by
  simp only [parsePortNameList]
  rw [trimSpaceList_of_nospace _ (modern_chars_nospace ps vs hpd hvd),
    goAtoi_error_of_head ('f' :: (ps ++ 'v' :: 'f' :: vs)) (by decide) (by decide) (by decide),
    vfPortRepMatch_unprefixed _ (by decide), vfPortRepCore_build ps vs hp hpd hv hvd]

theorem parsePortNameList_modern_prefixed (cds ps vs : List Char) (hc : cds ≠ [])
    (hcd : cds.all Char.isDigit = true) (hp : ps ≠ []) (hpd : ps.all Char.isDigit = true)
    (hv : vs ≠ []) (hvd : vs.all Char.isDigit = true) :
    parsePortNameList ('c' :: (cds ++ 'p' :: 'f' :: (ps ++ 'v' :: 'f' :: vs))) =
      (((digitsVal ps : Int), (digitsVal vs : Int)), none) := by
  have hns : ∀ x ∈ 'c' :: (cds ++ 'p' :: 'f' :: (ps ++ 'v' :: 'f' :: vs)),
      goIsSpace x = false := by
    intro x hx
    simp only [List.mem_cons, List.mem_append] at hx
    rcases hx with rfl | hx | hx
    · decide
    · exact goIsSpace_eq_false_of_isDigit (by simpa using List.all_eq_true.mp hcd x hx)
    · exact modern_chars_nospace ps vs hpd hvd x (by simpa using hx)
  simp only [parsePortNameList]
  rw [trimSpaceList_of_nospace _ hns,
    goAtoi_error_of_head (cds ++ 'p' :: 'f' :: (ps ++ 'v' :: 'f' :: vs))
      (by decide) (by decide) (by decide),
    vfPortRepMatch_prefixed cds ('f' :: (ps ++ 'v' :: 'f' :: vs)) hc hcd,
    vfPortRepCore_build ps vs hp hpd hv hvd]

theorem parsePortNameList_legacy (ws1 ws2 ds : List Char)
    (h1 : ∀ c ∈ ws1, goIsSpace c = true) (h2 : ∀ c ∈ ws2, goIsSpace c = true)
    (hne : ds ≠ []) (hd : ds.all Char.isDigit = true) :
    parsePortNameList (ws1 ++ ds ++ ws2) = ((-1, (digitsVal ds : Int)), none) := by
  have hnds : ∀ c ∈ ds, goIsSpace c = false := fun c hc =>
    goIsSpace_eq_false_of_isDigit (by simpa using List.all_eq_true.mp hd c hc)
  simp only [parsePortNameList]
  rw [trimSpaceList_surround ws1 ws2 ds h1 h2 hnds hne, goAtoi_digits ds hne hd]

theorem parsePortNameList_legacy_minus (ws1 ws2 ds : List Char)
    (h1 : ∀ c ∈ ws1, goIsSpace c = true) (h2 : ∀ c ∈ ws2, goIsSpace c = true)
    (hne : ds ≠ []) (hd : ds.all Char.isDigit = true) :
    parsePortNameList (ws1 ++ ('-' :: ds) ++ ws2) = ((-1, -(digitsVal ds : Int)), none) := by
  have hnds : ∀ c ∈ ('-' :: ds), goIsSpace c = false := by
    intro c hc
    rcases List.mem_cons.mp hc with rfl | hc
    · decide
    · exact goIsSpace_eq_false_of_isDigit (by simpa using List.all_eq_true.mp hd c hc)
  simp only [parsePortNameList]
  rw [trimSpaceList_surround ws1 ws2 _ h1 h2 hnds (by simp), goAtoi_minus ds hne hd]

theorem parsePortNameList_legacy_plus (ws1 ws2 ds : List Char)
    (h1 : ∀ c ∈ ws1, goIsSpace c = true) (h2 : ∀ c ∈ ws2, goIsSpace c = true)
    (hne : ds ≠ []) (hd : ds.all Char.isDigit = true) :
    parsePortNameList (ws1 ++ ('+' :: ds) ++ ws2) = ((-1, (digitsVal ds : Int)), none) := by
  have hnds : ∀ c ∈ ('+' :: ds), goIsSpace c = false := by
    intro c hc
    rcases List.mem_cons.mp hc with rfl | hc
    · decide
    · exact goIsSpace_eq_false_of_isDigit (by simpa using List.all_eq_true.mp hd c hc)
  simp only [parsePortNameList]
  rw [trimSpaceList_surround ws1 ws2 _ h1 h2 hnds (by simp), goAtoi_plus ds hne hd]

theorem parsePortName_fst_of_err (s : String) (e : String)
    (h : (parsePortName s).2 = some e) : (parsePortName s).1 = (-1, -1) := by
  simp only [parsePortName, parsePortNameList] at h ⊢
  cases hA : goAtoi (trimSpaceList s.data) with
  | ok n => rw [hA] at h; simp at h
  | error u =>
    rw [hA] at h
    cases hm : vfPortRepMatch (trimSpaceList s.data) with
    | none => simp [hm]
    | some p =>
      obtain ⟨d1, d2⟩ := p
      rw [hm] at h
      simp at h

theorem parsePortName_snd_none_of_vf (s : String)
    (h : (parsePortName s).1.2 ≠ -1) : (parsePortName s).2 = none := by
  cases ho : (parsePortName s).2 with
  | none => rfl
  | some e =>
    have := parsePortName_fst_of_err s e ho
    rw [this] at h
    simp at h

/-! ### Decimal encoding lemmas -/

theorem digitsVal_foldl (l : List Char) : ∀ a : Nat,
    List.foldl (fun x c => 10 * x + digitVal c) a l = a * 10 ^ l.length + digitsVal l := by
  induction l with
  | nil => intro a; simp [digitsVal]
  | cons c t ih =>
    intro a
    simp only [List.foldl_cons, List.length_cons]
    rw [ih (10 * a + digitVal c)]
    have hd : digitsVal (c :: t) = digitVal c * 10 ^ t.length + digitsVal t := by
      have h1 : digitsVal (c :: t) =
          List.foldl (fun x c => 10 * x + digitVal c) (10 * 0 + digitVal c) t := rfl
      rw [h1, ih (10 * 0 + digitVal c)]
      ring
    rw [hd]
    ring

theorem digitVal_digitChar {d : Nat} (h : d < 10) : digitVal (Nat.digitChar d) = d := by
  interval_cases d <;> decide

theorem digitChar_isDigit {d : Nat} (h : d < 10) : (Nat.digitChar d).isDigit = true := by
  interval_cases d <;> decide

theorem natDecimalAux_val (n : Nat) : ∀ acc : List Char,
    digitsVal (natDecimalAux n acc) = n * 10 ^ acc.length + digitsVal acc := by
  induction n using Nat.strong_induction_on with
  | _ n ih =>
    intro acc
    rw [natDecimalAux]
    by_cases h : n = 0
    · rw [dif_pos h, h]; ring
    · rw [dif_neg h,
        ih (n / 10) (Nat.div_lt_self (Nat.pos_of_ne_zero h) (by decide))
          (Nat.digitChar (n % 10) :: acc)]
      have hd : digitsVal (Nat.digitChar (n % 10) :: acc) =
          (n % 10) * 10 ^ acc.length + digitsVal acc := by
        have h1 : digitsVal (Nat.digitChar (n % 10) :: acc) =
            List.foldl (fun x c => 10 * x + digitVal c)
              (10 * 0 + digitVal (Nat.digitChar (n % 10))) acc := rfl
        rw [h1, digitsVal_foldl, digitVal_digitChar (Nat.mod_lt n (by decide))]
        ring
      rw [hd, List.length_cons]
      have h3 : 10 * (n / 10) + n % 10 = n := Nat.div_add_mod n 10
      conv_rhs => rw [← h3]
      ring

theorem natDecimalAux_digits (n : Nat) : ∀ acc : List Char,
    (∀ c ∈ acc, c.isDigit = true) → ∀ c ∈ natDecimalAux n acc, c.isDigit = true := by
  induction n using Nat.strong_induction_on with
  | _ n ih =>
    intro acc hacc c hc
    rw [natDecimalAux] at hc
    by_cases h : n = 0
    · rw [dif_pos h] at hc; exact hacc c hc
    · rw [dif_neg h] at hc
      refine ih (n / 10) (Nat.div_lt_self (Nat.pos_of_ne_zero h) (by decide)) _ ?_ c hc
      intro x hx
      rcases List.mem_cons.mp hx with rfl | hx
      · exact digitChar_isDigit (Nat.mod_lt n (by decide))
      · exact hacc x hx

theorem natDecimalAux_ne_nil (n : Nat) : ∀ acc : List Char,
    n ≠ 0 ∨ acc ≠ [] → natDecimalAux n acc ≠ [] := by
  induction n using Nat.strong_induction_on with
  | _ n ih =>
    intro acc hor
    rw [natDecimalAux]
    by_cases h : n = 0
    · rw [dif_pos h]
      rcases hor with h0 | h0
      · exact absurd h h0
      · exact h0
    · rw [dif_neg h]
      exact ih (n / 10) (Nat.div_lt_self (Nat.pos_of_ne_zero h) (by decide)) _
        (Or.inr (by simp))

theorem natDecimal_ne_nil (n : Nat) : natDecimal n ≠ [] := by
  unfold natDecimal
  by_cases h : n = 0
  · rw [if_pos h]; simp
  · rw [if_neg h]; exact natDecimalAux_ne_nil n [] (Or.inl h)

theorem natDecimal_all_digits (n : Nat) : (natDecimal n).all Char.isDigit = true := by
  unfold natDecimal
  by_cases h : n = 0
  · rw [if_pos h]; decide
  · rw [if_neg h]
    rw [List.all_eq_true]
    intro c hc
    simpa using natDecimalAux_digits n [] (by simp) c hc

theorem digitsVal_natDecimal (n : Nat) : digitsVal (natDecimal n) = n := by
  unfold natDecimal
  by_cases h : n = 0
  · rw [if_pos h, h]; decide
  · rw [if_neg h]
    have := natDecimalAux_val n []
    simpa [digitsVal] using this

/-! ### Equivalence of the parser's domain with the spec's recognized shapes -/

theorem goAtoi_eq_error_iff (cs : List Char) :
    goAtoi cs = .error () ↔ isLegacyIntegerShape cs = false := by
  have dplus : ('+' : Char).isDigit = false := by decide
  have dminus : ('-' : Char).isDigit = false := by decide
  cases cs with
  | nil => simp [goAtoi, isLegacyIntegerShape]
  | cons c t =>
    by_cases hp : c = '+'
    · subst hp
      cases t with
      | nil => simp [goAtoi, isLegacyIntegerShape]
      | cons a u =>
        by_cases h2 : (a :: u).all Char.isDigit = true
        · simp [goAtoi, isLegacyIntegerShape, h2, dplus]
        · simp [goAtoi, isLegacyIntegerShape, h2, dplus]
    · by_cases hm : c = '-'
      · subst hm
        cases t with
        | nil => simp [goAtoi, isLegacyIntegerShape]
        | cons a u =>
          by_cases h2 : (a :: u).all Char.isDigit = true
          · simp [goAtoi, isLegacyIntegerShape, h2, dminus]
          · simp [goAtoi, isLegacyIntegerShape, h2, dminus]
      · by_cases hcd : c.isDigit = true
        · by_cases h2 : t.all Char.isDigit = true
          · simp [goAtoi, isLegacyIntegerShape, hp, hm, hcd, h2]
          · simp [goAtoi, isLegacyIntegerShape, hp, hm, hcd, h2]
        · have hcd' : c.isDigit = false := by simpa using hcd
          simp [goAtoi, isLegacyIntegerShape, hp, hm, hcd']

theorem vfPortRepCore_eq_none_iff (cs : List Char) :
    vfPortRepCore cs = none ↔ isModernShapeCore cs = false := by
  cases cs with
  | nil => simp [vfPortRepCore, isModernShapeCore]
  | cons c1 rest =>
    cases rest with
    | nil => simp [vfPortRepCore, isModernShapeCore]
    | cons c2 t =>
      by_cases hpf : c1 = 'p' ∧ c2 = 'f'
      · obtain ⟨rfl, rfl⟩ := hpf
        by_cases hemp : (t.takeWhile Char.isDigit).isEmpty = true
        · simp [vfPortRepCore, isModernShapeCore, hemp]
        · have hemp' : (t.takeWhile Char.isDigit).isEmpty = false := by simpa using hemp
          cases hdw : t.dropWhile Char.isDigit with
          | nil => simp [vfPortRepCore, isModernShapeCore, hemp', hdw]
          | cons e1 rest2 =>
            cases rest2 with
            | nil => simp [vfPortRepCore, isModernShapeCore, hemp', hdw]
            | cons e2 u =>
              by_cases hvf : e1 = 'v' ∧ e2 = 'f'
              · obtain ⟨rfl, rfl⟩ := hvf
                by_cases hu : (!u.isEmpty && u.all Char.isDigit) = true
                · simp [vfPortRepCore, isModernShapeCore, hemp', hdw, hu]
                · have hu' : (!u.isEmpty && u.all Char.isDigit) = false := by simpa using hu
                  simp [vfPortRepCore, isModernShapeCore, hemp', hdw, hu']
              · have h1 : ¬(e1 = 'v' ∧ e2 = 'f') := hvf
                simp [vfPortRepCore, isModernShapeCore, hemp', hdw, h1]
      · have h2 : ¬(c1 = 'p' ∧ c2 = 'f') := hpf
        simp [vfPortRepCore, isModernShapeCore, h2]

theorem coreShape_false_of_c (t : List Char) : isModernShapeCore ('c' :: t) = false := by
  cases t with
  | nil => rfl
  | cons c2 u => simp [isModernShapeCore]

theorem vfPortRepMatch_eq_none_iff (cs : List Char) :
    vfPortRepMatch cs = none ↔ isModernShape cs = false := by
  cases cs with
  | nil => simp [vfPortRepMatch, isModernShape, isModernShapeCore]
  | cons c t =>
    by_cases hc : c = 'c'
    · subst hc
      by_cases hemp : ((t.takeWhile Char.isDigit).isEmpty : Bool) = true
      · simp [vfPortRepMatch, isModernShape, hemp, coreShape_false_of_c]
      · have hemp' : (t.takeWhile Char.isDigit).isEmpty = false := by simpa using hemp
        simp [vfPortRepMatch, isModernShape, hemp', coreShape_false_of_c,
          vfPortRepCore_eq_none_iff]
    · simp [vfPortRepMatch, isModernShape, hc, vfPortRepCore_eq_none_iff]

theorem parsePortName_none_iff (s : String) :
    (parsePortName s).2 = none ↔ recognizedShape s = true := by
  simp only [parsePortName, parsePortNameList, recognizedShape]
  cases hA : goAtoi (trimSpaceList s.data) with
  | ok n =>
    have hleg : isLegacyIntegerShape (trimSpaceList s.data) = true := by
      cases hsh : isLegacyIntegerShape (trimSpaceList s.data) with
      | false => rw [(goAtoi_eq_error_iff _).mpr hsh] at hA; cases hA
      | true => rfl
    simp [hleg]
  | error u =>
    cases u
    have hleg : isLegacyIntegerShape (trimSpaceList s.data) = false :=
      (goAtoi_eq_error_iff _).mp hA
    cases hm : vfPortRepMatch (trimSpaceList s.data) with
    | none =>
      have hmod : isModernShape (trimSpaceList s.data) = false :=
        (vfPortRepMatch_eq_none_iff _).mp hm
      simp [hleg, hmod]
    | some p =>
      obtain ⟨d1, d2⟩ := p
      have hmod : isModernShape (trimSpaceList s.data) = true := by
        cases hsh : isModernShape (trimSpaceList s.data) with
        | false => rw [(vfPortRepMatch_eq_none_iff _).mpr hsh] at hm; cases hm
        | true => rfl
      simp [hleg, hmod, hm]

/-! ### Resolver loop lemmas -/

theorem getVfRepLoop_cases (fs : Fs) (uplink sw : String) (vfIndex : Int) :
    ∀ devs : List String,
      getVfRepLoop fs uplink sw vfIndex devs =
          .error ("failed to find VF representor for uplink " ++ uplink) ∨
        ∃ d pn, getVfRepLoop fs uplink sw vfIndex devs = .ok d ∧
          getNetDevPhysPortName fs d = .ok pn ∧ (parsePortName pn).1.2 = vfIndex := by
  intro devs
  induction devs with
  | nil => exact Or.inl rfl
  | cons d rest ih =>
    simp only [getVfRepLoop]
    cases h1 : fs.readFile (goJoin (goJoin NetSysDir d) netdevPhysSwitchID) with
    | error e1 => exact ih
    | ok deviceSwID =>
      dsimp only
      by_cases h2 : deviceSwID ≠ sw
      · rw [if_pos h2]; exact ih
      · rw [if_neg h2]
        cases h3 : getNetDevPhysPortName fs d with
        | error e3 => exact ih
        | ok pn =>
          dsimp only
          by_cases h4 : (parsePortName pn).1.1 ≠ -1
          · rw [if_pos h4]
            cases h5 : fs.getPCIFromDeviceName uplink with
            | error e5 => exact ih
            | ok pfPCI =>
              dsimp only
              cases h6 : lastCharAtoi pfPCI with
              | error e6 => exact ih
              | ok funcAddr =>
                dsimp only
                by_cases h7 : (parsePortName pn).1.1 ≠ funcAddr
                · rw [if_pos h7]; exact ih
                · rw [if_neg h7]
                  by_cases h8 : (parsePortName pn).1.2 = vfIndex
                  · rw [if_pos h8]
                    exact Or.inr ⟨d, pn, rfl, h3, h8⟩
                  · rw [if_neg h8]; exact ih
          · rw [if_neg h4]
            by_cases h8 : (parsePortName pn).1.2 = vfIndex
            · rw [if_pos h8]
              exact Or.inr ⟨d, pn, rfl, h3, h8⟩
            · rw [if_neg h8]; exact ih

theorem GetVfRepresentor_eq_loop (fs : Fs) (uplink : String) (vfIndex : Int)
    (sw : String) (devs : List String)
    (h1 : fs.readFile (swIDFilePath uplink) = .ok sw) (h2 : sw ≠ "")
    (h3 : fs.readDir (subsystemPath uplink) = .ok devs) :
    GetVfRepresentor fs uplink vfIndex = getVfRepLoop fs uplink sw vfIndex devs := by
  simp only [GetVfRepresentor, h1, if_neg h2, h3]

theorem getVfRepLoop_skip (fs : Fs) (uplink sw : String) (vfIndex : Int)
    (d : String) (rest : List String) (pn : String)
    (hvf : vfIndex ≠ -1) (hpn : getNetDevPhysPortName fs d = .ok pn)
    (herr : (parsePortName pn).2.isSome = true) :
    getVfRepLoop fs uplink sw vfIndex (d :: rest) = getVfRepLoop fs uplink sw vfIndex rest := by
  obtain ⟨e, he⟩ := Option.isSome_iff_exists.mp herr
  have hfst : (parsePortName pn).1 = (-1, -1) := parsePortName_fst_of_err pn e he
  simp only [getVfRepLoop]
  cases h1 : fs.readFile (goJoin (goJoin NetSysDir d) netdevPhysSwitchID) with
  | error e1 => rfl
  | ok deviceSwID =>
    dsimp only
    by_cases h2 : deviceSwID ≠ sw
    · rw [if_pos h2]
    · rw [if_neg h2, hpn]
      dsimp only
      have hpf : ¬((parsePortName pn).1.1 ≠ -1) := by rw [hfst]; simp
      rw [if_neg hpf, if_neg (by rw [hfst]; simpa using (Ne.symm hvf))]

/-! ### Claim theorems: the port-name codec -/

/-- C3, counterexample: `parsePortName "-5"` succeeds (no error) with
`vfIndex = -5 < 0`, because Go's `strconv.Atoi` accepts signed input on
the legacy path; this refutes "the returned vfIndex is a non-negative
integer" for every successful parse. -/
theorem claim_C3_counterexample :
    parsePortName "-5" = ((-1, -5), none) ∧ (-5 : Int) < 0 := ⟨by decide, by decide⟩

/-- C3, amended: whenever `parsePortName` succeeds, the returned pfIndex
is either absent (-1) or non-negative, and whenever the pfIndex is
present (modern form) the vfIndex is also non-negative; on the legacy
path (pfIndex = -1) the vfIndex may be any integer the numeric string
denotes, including negative ones. -/
theorem claim_C3_amended (s : String) (pf vf : Int)
    (h : parsePortName s = ((pf, vf), none)) : pf = -1 ∨ (0 ≤ pf ∧ 0 ≤ vf) := by
  have h1 : (parsePortName s).1 = (pf, vf) := by rw [h]
  have h2 : (parsePortName s).2 = none := by rw [h]
  simp only [parsePortName, parsePortNameList] at h1 h2
  cases hA : goAtoi (trimSpaceList s.data) with
  | ok n =>
    rw [hA] at h1
    simp only [Prod.mk.injEq] at h1
    exact Or.inl h1.1.symm
  | error u =>
    rw [hA] at h1 h2
    cases hm : vfPortRepMatch (trimSpaceList s.data) with
    | none => rw [hm] at h2; simp at h2
    | some p =>
      obtain ⟨d1, d2⟩ := p
      rw [hm] at h1
      simp only [Prod.mk.injEq] at h1
      refine Or.inr ⟨?_, ?_⟩
      · rw [← h1.1]; exact Int.ofNat_nonneg (digitsVal d1)
      · rw [← h1.2]; exact Int.ofNat_nonneg (digitsVal d2)

/-- C3, witness for the amended theorem at `"pf1vf5"`. -/
theorem claim_C3_witness :
    parsePortName "pf1vf5" = ((1, 5), none) ∧
      ((1 : Int) = -1 ∨ (0 ≤ (1 : Int) ∧ 0 ≤ (5 : Int))) :=
  ⟨by decide, claim_C3_amended "pf1vf5" 1 5 (by decide)⟩

/-- C4: every string of the modern VF-representor shape
`^(?:c<digits>)?pf<digits>vf<digits>$` parses to the two captured digit
groups, and the optional controller prefix `c<digits>` does not change
the decoded indices for an otherwise-identical `pf..vf..` input. -/
theorem claim_C4 (cds ps vs : List Char) (hc : cds ≠ [])
    (hcd : cds.all Char.isDigit = true) (hp : ps ≠ [])
    (hpd : ps.all Char.isDigit = true) (hv : vs ≠ [])
    (hvd : vs.all Char.isDigit = true) :
    parsePortName (String.mk ('c' :: (cds ++ 'p' :: 'f' :: (ps ++ 'v' :: 'f' :: vs)))) =
      (((digitsVal ps : Int), (digitsVal vs : Int)), none) ∧
    parsePortName (String.mk ('p' :: 'f' :: (ps ++ 'v' :: 'f' :: vs))) =
      (((digitsVal ps : Int), (digitsVal vs : Int)), none) := by
  rw [parsePortName_mk, parsePortName_mk]
  exact ⟨parsePortNameList_modern_prefixed cds ps vs hc hcd hp hpd hv hvd,
    parsePortNameList_modern ps vs hp hpd hv hvd⟩

/-- C4, witness at `"c2pf1vf5"` and `"pf1vf5"`: both decode to `(1, 5)`. -/
theorem claim_C4_witness :
    parsePortName (String.mk ['c', '2', 'p', 'f', '1', 'v', 'f', '5']) = ((1, 5), none) ∧
    parsePortName (String.mk ['p', 'f', '1', 'v', 'f', '5']) = ((1, 5), none) :=
  claim_C4 ['2'] ['1'] ['5'] (by decide) (by decide) (by decide) (by decide)
    (by decide) (by decide)

/-- C5: every pure-integer string optionally surrounded by whitespace
(the legacy encoding, unsigned or signed) parses with `pfIndex = -1` and
`vfIndex` equal to the integer's value. -/
theorem claim_C5 (ws1 ws2 ds : List Char)
    (h1 : ∀ c ∈ ws1, goIsSpace c = true) (h2 : ∀ c ∈ ws2, goIsSpace c = true)
    (hne : ds ≠ []) (hd : ds.all Char.isDigit = true) :
    parsePortName (String.mk (ws1 ++ ds ++ ws2)) = ((-1, (digitsVal ds : Int)), none) ∧
    parsePortName (String.mk (ws1 ++ ('+' :: ds) ++ ws2)) =
      ((-1, (digitsVal ds : Int)), none) ∧
    parsePortName (String.mk (ws1 ++ ('-' :: ds) ++ ws2)) =
      ((-1, -(digitsVal ds : Int)), none) := by
  rw [parsePortName_mk, parsePortName_mk, parsePortName_mk]
  exact ⟨parsePortNameList_legacy ws1 ws2 ds h1 h2 hne hd,
    parsePortNameList_legacy_plus ws1 ws2 ds h1 h2 hne hd,
    parsePortNameList_legacy_minus ws1 ws2 ds h1 h2 hne hd⟩

/-- C5, witness at `" 3"`, `" +3"`, `" -3"`. -/
theorem claim_C5_witness :
    parsePortName (String.mk [' ', '3']) = ((-1, 3), none) ∧
    parsePortName (String.mk [' ', '+', '3']) = ((-1, 3), none) ∧
    parsePortName (String.mk [' ', '-', '3']) = ((-1, -3), none) :=
  claim_C5 [' '] [] ['3'] (by decide) (by decide) (by decide) (by decide)

/-- C6: round-trip — encoding any pair `(pf, vf)` of naturals as
`"pf{pf}vf{vf}"` and decoding with `parsePortName` recovers exactly
`pfIndex = pf` and `vfIndex = vf`. -/
theorem claim_C6 (pf vf : Nat) :
    parsePortName (encodePortName pf vf) = (((pf : Int), (vf : Int)), none) := by
  unfold encodePortName
  rw [parsePortName_mk,
    parsePortNameList_modern (natDecimal pf) (natDecimal vf) (natDecimal_ne_nil pf)
      (natDecimal_all_digits pf) (natDecimal_ne_nil vf) (natDecimal_all_digits vf),
    digitsVal_natDecimal, digitsVal_natDecimal]

/-- C7: `parsePortName` succeeds exactly when the (trimmed) input matches
one of the recognized shapes of §4.1 — equivalently, it fails with a
parse error exactly when the input matches none — and in particular the
PF-only name `"pf1"` and the arbitrary string `"garbage"` both fail. -/
theorem claim_C7 :
    (∀ s : String, (parsePortName s).2 = none ↔ recognizedShape s = true) ∧
    parsePortName "pf1" = ((-1, -1), some "failed to parse physPortName pf1") ∧
    parsePortName "garbage" = ((-1, -1), some "failed to parse physPortName garbage") :=
  ⟨parsePortName_none_iff, by decide, by decide⟩

/-! ### Claim theorems: the resolvers -/

/-- C1, counterexample: the source discards `parsePortName`'s error, so a
sibling whose port name fails to decode carries the sentinel indices
`(-1, -1)`; requesting `vfIndex = -1` therefore returns such a sibling.
Here `weird` has the undecodable port name `garbage`, matching switch id,
and `GetVfRepresentor` at index -1 returns it — refuting "never returned
for every requested vfIndex (including negative requested indices)". -/
theorem claim_C1_counterexample :
    (parsePortName "garbage").2.isSome = true ∧
    getNetDevPhysPortName fsFix1 "weird" = Except.ok "garbage" ∧
    GetVfRepresentor fsFix1 "p0" (-1) = Except.ok "weird" :=
  ⟨rfl, rfl, rfl⟩

/-- C1, amended: for every requested `vfIndex ≠ -1`, a sibling whose
port name fails to decode is skipped (the loop continues past it) and is
never the returned result — every returned interface has a readable,
successfully-decoding port name. Only the sentinel request `vfIndex = -1`
can return a decode-failing sibling, because the discarded parse error
leaves `vfRepIndex = -1`. -/
theorem claim_C1_amended (fs : Fs) (uplink sw : String) (vfIndex : Int) (d : String)
    (rest : List String) (hvf : vfIndex ≠ -1) :
    (∀ pn, getNetDevPhysPortName fs d = .ok pn → (parsePortName pn).2.isSome = true →
      getVfRepLoop fs uplink sw vfIndex (d :: rest) =
        getVfRepLoop fs uplink sw vfIndex rest) ∧
    (∀ name, GetVfRepresentor fs uplink vfIndex = .ok name →
      ∃ pn, getNetDevPhysPortName fs name = .ok pn ∧ (parsePortName pn).2 = none) := by
  constructor
  · intro pn hpn herr
    exact getVfRepLoop_skip fs uplink sw vfIndex d rest pn hvf hpn herr
  · intro name h
    simp only [GetVfRepresentor] at h
    cases hr : fs.readFile (swIDFilePath uplink) with
    | error e => rw [hr] at h; simp at h
    | ok sw2 =>
      rw [hr] at h
      dsimp only at h
      by_cases hsw : sw2 = ""
      · rw [if_pos hsw] at h; simp at h
      · rw [if_neg hsw] at h
        cases hd : fs.readDir (subsystemPath uplink) with
        | error e => rw [hd] at h; simp at h
        | ok devs =>
          rw [hd] at h
          dsimp only at h
          rcases getVfRepLoop_cases fs uplink sw2 vfIndex devs with
            hcase | ⟨d2, pn, hloop, hpn, hvf2⟩
          · rw [hcase] at h; simp at h
          · rw [hloop] at h
            injection h with h9
            subst h9
            exact ⟨pn, hpn, parsePortName_snd_none_of_vf pn (by rw [hvf2]; exact hvf)⟩

/-- C1, witness: with `vfIndex = 3 ≠ -1`, the decode-failing sibling
`weird` is skipped by the sibling loop. -/
theorem claim_C1_witness :
    getVfRepLoop fsFix1 "p0" "sw1" 3 ["weird", "rep3"] =
      getVfRepLoop fsFix1 "p0" "sw1" 3 ["rep3"] :=
  (claim_C1_amended fsFix1 "p0" "sw1" 3 "weird" ["rep3"] (by decide)).1 "garbage" rfl rfl

/-- C2, counterexample: when the full enumeration finds no match, the
error is `failed to find VF representor for uplink %s` — identical for
requested indices 7 and 8 and containing neither digit, so it does not
name the requested vfIndex, refuting "names both the uplink interface
and the requested vfIndex". -/
theorem claim_C2_counterexample :
    GetVfRepresentor fsFix1 "p0" 7 =
      .error "failed to find VF representor for uplink p0" ∧
    GetVfRepresentor fsFix1 "p0" 8 =
      .error "failed to find VF representor for uplink p0" ∧
    ("failed to find VF representor for uplink p0".data.all
      (fun c => !(c = '7' || c = '8'))) = true :=
  ⟨rfl, rfl, by decide⟩

/-- C2, amended: when the switch id reads non-empty and the subsystem
listing succeeds, any error returned by `GetVfRepresentor` (i.e. the
full enumeration completed with no match) is the "not found" error
naming the uplink interface only; the requested vfIndex does not appear
in the message. -/
theorem claim_C2_amended (fs : Fs) (uplink : String) (vfIndex : Int) (sw : String)
    (devs : List String) (e : String)
    (h1 : fs.readFile (swIDFilePath uplink) = .ok sw) (h2 : sw ≠ "")
    (h3 : fs.readDir (subsystemPath uplink) = .ok devs)
    (h : GetVfRepresentor fs uplink vfIndex = .error e) :
    e = "failed to find VF representor for uplink " ++ uplink := by
  rw [GetVfRepresentor_eq_loop fs uplink vfIndex sw devs h1 h2 h3] at h
  rcases getVfRepLoop_cases fs uplink sw vfIndex devs with hc | ⟨d, pn, hloop, h4, h5⟩
  · rw [hc] at h
    injection h with h9
    exact h9.symm
  · rw [hloop] at h
    simp at h

/-- C2, witness at the concrete fixture, uplink `p0`, requested index 7. -/
theorem claim_C2_witness :
    fsFix1.readFile (swIDFilePath "p0") = Except.ok "sw1" ∧
    ("failed to find VF representor for uplink p0" : String) =
      "failed to find VF representor for uplink " ++ "p0" :=
  ⟨rfl, claim_C2_amended fsFix1 "p0" 7 "sw1" ["weird", "rep3"]
    "failed to find VF representor for uplink p0" rfl (by decide) rfl rfl⟩

/-- C8: inside `GetUplinkRepresentor`'s candidate loop, a switchdev
candidate whose `phys_port_name` read fails is accepted and returned;
when the read succeeds the candidate is returned exactly when the port
name matches `^p<digits>$`, and is skipped otherwise. -/
theorem claim_C8 (fs : Fs) (pci path d : String) (rest : List String)
    (hdir : fs.readDir path = .ok (d :: rest)) (hsw : isSwitchdev fs d = true) :
    (∀ e, getNetDevPhysPortName fs d = .error e →
      uplinkSearchInDir fs pci path = .ok d) ∧
    (∀ pn, getNetDevPhysPortName fs d = .ok pn → physPortRepMatch pn.data = true →
      uplinkSearchInDir fs pci path = .ok d) ∧
    (∀ pn, getNetDevPhysPortName fs d = .ok pn → physPortRepMatch pn.data = false →
      uplinkDeviceLoop fs (d :: rest) = uplinkDeviceLoop fs rest) := by
  refine ⟨?_, ?_, ?_⟩
  · intro e he
    have hloop : uplinkDeviceLoop fs (d :: rest) = some d := by
      simp [uplinkDeviceLoop, hsw, he]
    simp [uplinkSearchInDir, hdir, hloop]
  · intro pn hpn hm
    have hloop : uplinkDeviceLoop fs (d :: rest) = some d := by
      simp [uplinkDeviceLoop, hsw, hpn, hm]
    simp [uplinkSearchInDir, hdir, hloop]
  · intro pn hpn hm
    simp [uplinkDeviceLoop, hsw, hpn, hm]

/-- C8, witness: the switchdev candidate `p0` with readable, matching
port name `p0` is returned. -/
theorem claim_C8_witness :
    isSwitchdev fsFix1 "p0" = true ∧
    uplinkSearchInDir fsFix1 "0000:03:00.4"
      "/sys/bus/pci/devices/0000:03:00.4/physfn/net" = Except.ok "p0" :=
  ⟨rfl, (claim_C8 fsFix1 "0000:03:00.4" "/sys/bus/pci/devices/0000:03:00.4/physfn/net"
    "p0" [] rfl rfl).2.1 "p0" rfl rfl⟩

/-- C9: when the uplink's switch-identifier attribute is unreadable or
reads as the empty string, `GetVfRepresentor` fails immediately with the
distinct error `cant get uplink %s switch id` naming the uplink, and the
result does not depend on the directory listing at all (the subsystem
directory is never listed): replacing `readDir` by anything yields the
same error. -/
theorem claim_C9 (fs : Fs) (uplink : String) (vfIndex : Int)
    (h : (∃ e, fs.readFile (swIDFilePath uplink) = .error e) ∨
      fs.readFile (swIDFilePath uplink) = .ok "") :
    GetVfRepresentor fs uplink vfIndex =
      .error ("cant get uplink " ++ uplink ++ " switch id") ∧
    ∀ rd, GetVfRepresentor { fs with readDir := rd } uplink vfIndex =
      .error ("cant get uplink " ++ uplink ++ " switch id") := by
  have key : ∀ g : Fs, g.readFile (swIDFilePath uplink) = fs.readFile (swIDFilePath uplink) →
      GetVfRepresentor g uplink vfIndex =
        .error ("cant get uplink " ++ uplink ++ " switch id") := by
    intro g hg
    rcases h with ⟨e, he⟩ | he
    · rw [he] at hg
      simp [GetVfRepresentor, hg]
    · rw [he] at hg
      simp [GetVfRepresentor, hg]
  exact ⟨key fs rfl, fun rd => key { fs with readDir := rd } rfl⟩

/-- C9, witness: `px` has no readable switch id in the fixture. -/
theorem claim_C9_witness :
    GetVfRepresentor fsFix1 "px" 0 = Except.error "cant get uplink px switch id" :=
  (claim_C9 fsFix1 "px" 0 (Or.inl ⟨"ENOENT", rfl⟩)).1

/-- C10: `GetUplinkRepresentor` falls back to the device's own net
directory exactly when statting the physfn net path fails with
not-exist; for a stat success or any other stat failure the physfn path
remains the device directory, and if listing it then fails the operation
returns the lookup error naming the PCI address (the device's own net
directory is never consulted). -/
theorem claim_C10 (fs : Fs) (pci : String) :
    (fs.stat (physfnNetPath pci) = .notExist →
      GetUplinkRepresentor fs pci = uplinkSearchInDir fs pci (ownNetPath pci)) ∧
    (fs.stat (physfnNetPath pci) ≠ .notExist →
      GetUplinkRepresentor fs pci = uplinkSearchInDir fs pci (physfnNetPath pci)) ∧
    (∀ e, fs.stat (physfnNetPath pci) ≠ .notExist →
      fs.readDir (physfnNetPath pci) = .error e →
      GetUplinkRepresentor fs pci = .error ("failed to lookup " ++ pci ++ ": " ++ e)) := by
  have hphys : fs.stat (physfnNetPath pci) ≠ .notExist →
      GetUplinkRepresentor fs pci = uplinkSearchInDir fs pci (physfnNetPath pci) := by
    intro h
    simp only [GetUplinkRepresentor]
  refine ⟨?_, hphys, ?_⟩
  · intro h
    simp only [GetUplinkRepresentor, h]
  · intro e h hrd
    rw [hphys h]
    simp [uplinkSearchInDir, hrd]

/-- C10, witness: `stat` yields success (not not-exist) for
`0000:07:00.0`, the physfn net listing fails with `ENOENT`, and the
lookup error names the PCI address. -/
theorem claim_C10_witness :
    fsFix1.stat (physfnNetPath "0000:07:00.0") ≠ StatResult.notExist ∧
    GetUplinkRepresentor fsFix1 "0000:07:00.0" =
      Except.error "failed to lookup 0000:07:00.0: ENOENT" :=
  ⟨by decide, (claim_C10 fsFix1 "0000:07:00.0").2.2 "ENOENT" (by decide) rfl⟩

end Sriovnet
